import Mathlib

/-!
Verification of the cash-secured-put (CSP) scoring engine of `anyhowhodl`
(package `csp`).  The arithmetic of the scoring pipeline is embedded with a
float model `F`: a value is either `nan` or an exact rational.  This captures
the NaN propagation and NaN comparison semantics the source relies on
(`math.IsNaN` guards, comparisons with NaN being false), while keeping all
values exact; infinities and rounding are not modelled because no claim and no
reached code path involves them (every division in the pipeline has a nonzero
divisor on the paths reached, and the guards `==`/`<`/`IsNaN` are modelled
exactly as Go evaluates them).
-/

/-- Model of a Go `float64` in the scoring pipeline: `nan`, or a finite value
held as an exact rational. -/
inductive F where
  | nan : F
  | fin : ℚ → F
deriving DecidableEq, Repr

namespace F

/-- `math.IsNaN`. -/
def isNaN : F → Bool
  | nan => true
  | fin _ => false

/-- Float addition: NaN propagates. -/
def add : F → F → F
  | fin a, fin b => fin (a + b)
  | _, _ => nan

/-- Float subtraction: NaN propagates. -/
def sub : F → F → F
  | fin a, fin b => fin (a - b)
  | _, _ => nan

/-- Float multiplication: NaN propagates. -/
def mul : F → F → F
  | fin a, fin b => fin (a * b)
  | _, _ => nan

/-- Float division: NaN propagates.  Division by zero also yields `nan`; the
source never divides by zero on any reached path, so the `0/0` vs `x/0`
distinction (NaN vs infinity in IEEE) never matters. -/
def div : F → F → F
  | fin a, fin b => if b = 0 then nan else fin (a / b)
  | _, _ => nan

/-- Go `x <= y` on floats: any comparison with NaN is false. -/
def le : F → F → Bool
  | fin a, fin b => decide (a ≤ b)
  | _, _ => false

/-- Go `x < y` on floats: any comparison with NaN is false. -/
def lt : F → F → Bool
  | fin a, fin b => decide (a < b)
  | _, _ => false

/-- Go `x == y` on floats: any comparison with NaN is false. -/
def beq : F → F → Bool
  | fin a, fin b => decide (a = b)
  | _, _ => false

/-- Go `math.Max`: NaN if either argument is NaN. -/
def maxF : F → F → F
  | fin a, fin b => fin (max a b)
  | _, _ => nan

/-- Go `math.Min`: NaN if either argument is NaN. -/
def minF : F → F → F
  | fin a, fin b => fin (min a b)
  | _, _ => nan

/-- The value is finite and lies in `[lo, hi]`. -/
def inRange (lo hi : ℚ) : F → Bool
  | nan => false
  | fin q => decide (lo ≤ q) && decide (q ≤ hi)

instance : Add F := ⟨F.add⟩

instance : Sub F := ⟨F.sub⟩

instance : Mul F := ⟨F.mul⟩

instance : Div F := ⟨F.div⟩

@[simp] theorem fin_add_fin (a b : ℚ) : fin a + fin b = fin (a + b) := rfl

@[simp] theorem add_nan (x : F) : x + nan = nan := by cases x <;> rfl

@[simp] theorem nan_add (x : F) : nan + x = nan := rfl

@[simp] theorem fin_sub_fin (a b : ℚ) : fin a - fin b = fin (a - b) := rfl

@[simp] theorem sub_nan (x : F) : x - nan = nan := by cases x <;> rfl

@[simp] theorem nan_sub (x : F) : nan - x = nan := rfl

@[simp] theorem fin_mul_fin (a b : ℚ) : fin a * fin b = fin (a * b) := rfl

@[simp] theorem mul_nan (x : F) : x * nan = nan := by cases x <;> rfl

@[simp] theorem nan_mul (x : F) : nan * x = nan := rfl

@[simp] theorem fin_div_fin (a b : ℚ) :
    fin a / fin b = if b = 0 then nan else fin (a / b) := rfl

@[simp] theorem div_nan (x : F) : x / nan = nan := by cases x <;> rfl

@[simp] theorem nan_div (x : F) : nan / x = nan := rfl

@[simp] theorem sub_fin_fin (a b : ℚ) : sub (fin a) (fin b) = fin (a - b) := rfl

@[simp] theorem sub_nan_right (x : F) : sub x nan = nan := by cases x <;> rfl

@[simp] theorem sub_nan_left (x : F) : sub nan x = nan := rfl

@[simp] theorem le_fin_fin (a b : ℚ) : le (fin a) (fin b) = decide (a ≤ b) := rfl

@[simp] theorem le_nan_right (x : F) : le x nan = false := by cases x <;> rfl

@[simp] theorem le_nan_left (x : F) : le nan x = false := rfl

@[simp] theorem lt_fin_fin (a b : ℚ) : lt (fin a) (fin b) = decide (a < b) := rfl

@[simp] theorem lt_nan_right (x : F) : lt x nan = false := by cases x <;> rfl

@[simp] theorem lt_nan_left (x : F) : lt nan x = false := rfl

@[simp] theorem beq_fin_fin (a b : ℚ) : beq (fin a) (fin b) = decide (a = b) := rfl

@[simp] theorem beq_nan_right (x : F) : beq x nan = false := by cases x <;> rfl

@[simp] theorem beq_nan_left (x : F) : beq nan x = false := rfl

@[simp] theorem maxF_fin_fin (a b : ℚ) : maxF (fin a) (fin b) = fin (max a b) := rfl

@[simp] theorem maxF_nan_right (x : F) : maxF x nan = nan := by cases x <;> rfl

@[simp] theorem maxF_nan_left (x : F) : maxF nan x = nan := rfl

@[simp] theorem minF_fin_fin (a b : ℚ) : minF (fin a) (fin b) = fin (min a b) := rfl

@[simp] theorem minF_nan_right (x : F) : minF x nan = nan := by cases x <;> rfl

@[simp] theorem minF_nan_left (x : F) : minF nan x = nan := rfl

@[simp] theorem isNaN_fin (a : ℚ) : isNaN (fin a) = false := rfl

@[simp] theorem isNaN_nan : isNaN nan = true := rfl

@[simp] theorem inRange_fin (lo hi a : ℚ) :
    inRange lo hi (fin a) = (decide (lo ≤ a) && decide (a ≤ hi)) := rfl

@[simp] theorem inRange_nan (lo hi : ℚ) : inRange lo hi nan = false := rfl

end F

/-! Signal weights for the composite CSP score (source constants
`WeightVIX = 0.20`, `WeightIVRank = 0.25`, `WeightRSI = 0.20`,
`WeightPutCallRatio = 0.15`, `WeightPremiumYield = 0.20`). -/

/-- Weight of the VIX signal, `0.20`. -/
def WeightVIX : ℚ := 1 / 5

/-- Weight of the IV-rank signal, `0.25`. -/
def WeightIVRank : ℚ := 1 / 4

/-- Weight of the RSI signal, `0.20`. -/
def WeightRSI : ℚ := 1 / 5

/-- Weight of the put/call-ratio signal, `0.15`. -/
def WeightPutCallRatio : ℚ := 3 / 20

/-- Weight of the premium-yield signal, `0.20`. -/
def WeightPremiumYield : ℚ := 1 / 5

/-- `linearInterp` from the source: piecewise linear interpolation through the
three control points `(x0,y0), (x1,y1), (x2,y2)`, the result clamped to
`[0, 100]` via `math.Max(0, math.Min(100, score))`. -/
def linearInterp (x x0 x1 x2 y0 y1 y2 : F) : F :=
  let score :=
    if F.le x x0 then y0
    else if F.le x x1 then y0 + (x - x0) / (x1 - x0) * (y1 - y0)
    else if F.le x x2 then y1 + (x - x1) / (x2 - x1) * (y2 - y1)
    else y2
  F.maxF (F.fin 0) (F.minF (F.fin 100) score)

/-- `ScoreVIX`: 15→0, 20→50, 30→100. -/
def ScoreVIX (vix : F) : F :=
  linearInterp vix (F.fin 15) (F.fin 20) (F.fin 30) (F.fin 0) (F.fin 50) (F.fin 100)

/-- `ScoreIVRank`: 0→0, 50→50, 100→100. -/
def ScoreIVRank (ivRank : F) : F :=
  linearInterp ivRank (F.fin 0) (F.fin 50) (F.fin 100) (F.fin 0) (F.fin 50) (F.fin 100)

/-- `ScoreRSI`: inverted mapping 70→0, 40→50, 20→100, written out in the
source as an explicit chain of comparisons rather than via `linearInterp`. -/
def ScoreRSI (rsi : F) : F :=
  if F.le (F.fin 70) rsi then F.fin 0
  else if F.le rsi (F.fin 20) then F.fin 100
  else if F.le (F.fin 40) rsi then
    F.fin 50 - (rsi - F.fin 40) / (F.fin 70 - F.fin 40) * F.fin 50
  else F.fin 100 - (rsi - F.fin 20) / (F.fin 40 - F.fin 20) * F.fin 50

/-- `ScorePutCallRatio`: 0.5→0, 1.0→50, 1.5→100. -/
def ScorePutCallRatio (pcr : F) : F :=
  linearInterp pcr (F.fin (1 / 2)) (F.fin 1) (F.fin (3 / 2)) (F.fin 0) (F.fin 50) (F.fin 100)

/-- `ScorePremiumYield`: 0→0, 15→50, 30→100. -/
def ScorePremiumYield (annualizedYield : F) : F :=
  linearInterp annualizedYield (F.fin 0) (F.fin 15) (F.fin 30) (F.fin 0) (F.fin 50) (F.fin 100)

/-- Body of the first loop of `CalculateRSI`: accumulate the gain sum and the
loss sum from one price change. -/
def rsiInitStep (gl : F × F) (change : F) : F × F :=
  if F.lt (F.fin 0) change then (gl.1 + change, gl.2) else (gl.1, gl.2 - change)

/-- Body of the smoothing loop of `CalculateRSI` (Wilder's method with
period 14). -/
def rsiSmoothStep (gl : F × F) (change : F) : F × F :=
  if F.lt (F.fin 0) change then
    ((gl.1 * F.fin 13 + change) / F.fin 14, gl.2 * F.fin 13 / F.fin 14)
  else (gl.1 * F.fin 13 / F.fin 14, (gl.2 * F.fin 13 - change) / F.fin 14)

/-- `CalculateRSI`: 14-period RSI from closing prices (newest last); `NaN`
when fewer than 15 points.  `closes.tail`-vs-`closes` zip is the sequence of
changes `closes[i] - closes[i-1]`. -/
def CalculateRSI (closes : List F) : F :=
  if closes.length < 15 then F.nan
  else
    let diffs := List.zipWith F.sub closes.tail closes
    let init := (diffs.take 14).foldl rsiInitStep (F.fin 0, F.fin 0)
    let start : F × F := (init.1 / F.fin 14, init.2 / F.fin 14)
    let smoothed := (diffs.drop 14).foldl rsiSmoothStep start
    if F.beq smoothed.2 (F.fin 0) then F.fin 100
    else F.fin 100 - F.fin 100 / (F.fin 1 + smoothed.1 / smoothed.2)

/-- `CalculateIVRank`: `(current - low) / (high - low) * 100`, `NaN` when the
range is zero (the `r == 0` float comparison of the source). -/
def CalculateIVRank (current low52w high52w : F) : F :=
  let r := high52w - low52w
  if F.beq r (F.fin 0) then F.nan
  else (current - low52w) / r * F.fin 100

/-- `CalculatePremiumYield`: `(premium/strike) * (365/dte) * 100`, `0` when
`strike == 0` or `dte == 0`. -/
def CalculatePremiumYield (premium strike : F) (dte : ℤ) : F :=
  if F.beq strike (F.fin 0) || decide (dte = 0) then F.fin 0
  else premium / strike * (F.fin 365 / F.fin (dte : ℚ)) * F.fin 100

/-- `SignalInput`: raw data for the CSP score computation. -/
structure SignalInput where
  VIX : F
  CurrentIV : F
  IVHigh52w : F
  IVLow52w : F
  ClosingPrices : List F
  TotalPutVolume : F
  TotalCallVolume : F
  PutPremium : F
  StrikePrice : F
  DTE : ℤ

/-- `SignalOutput`: computed signals and composite score. -/
structure SignalOutput where
  VIXScore : F
  IVRankScore : F
  RSIScore : F
  PutCallRatioScore : F
  PremiumYieldScore : F
  CompositeScore : F
  RawVIX : F
  RawIVRank : F
  RawRSI : F
  RawPutCallRatio : F
  RawPremiumYield : F
  Signal : String

/-- Body of the composite loop of `ComputeSignals`: accumulate
`(totalWeight, weightedSum)`, skipping NaN scores.  (In Go both accumulators
are `float64`; since every accumulated score is non-NaN and the weights are
constants, the accumulation is plain rational arithmetic.) -/
def compositeStep (acc : ℚ × ℚ) (ws : ℚ × F) : ℚ × ℚ :=
  match ws.2 with
  | F.nan => acc
  | F.fin q => (acc.1 + ws.1, acc.2 + ws.1 * q)

/-- `ComputeSignals`: all signal scores and the composite, with NaN
re-weighting.  The `CompositeScore` field keeps its Go zero value `0` when
`totalWeight > 0` fails. -/
def ComputeSignals (input : SignalInput) : SignalOutput :=
  let ivRank := CalculateIVRank input.CurrentIV input.IVLow52w input.IVHigh52w
  let rsi := CalculateRSI input.ClosingPrices
  let pcr :=
    if F.lt (F.fin 0) input.TotalCallVolume then
      input.TotalPutVolume / input.TotalCallVolume
    else F.fin 0
  let premYield := CalculatePremiumYield input.PutPremium input.StrikePrice input.DTE
  let vixScore := ScoreVIX input.VIX
  let ivRankScore := if ivRank.isNaN then F.nan else ScoreIVRank ivRank
  let rsiScore := if rsi.isNaN then F.nan else ScoreRSI rsi
  let pcrScore := ScorePutCallRatio pcr
  let premScore := ScorePremiumYield premYield
  let signals : List (ℚ × F) :=
    [(WeightVIX, vixScore), (WeightIVRank, ivRankScore), (WeightRSI, rsiScore),
     (WeightPutCallRatio, pcrScore), (WeightPremiumYield, premScore)]
  let acc := signals.foldl compositeStep (0, 0)
  let composite : F := if 0 < acc.1 then F.fin (acc.2 / acc.1) else F.fin 0
  let signal :=
    if F.lt (F.fin 70) composite then "STRONG"
    else if F.le (F.fin 50) composite then "MODERATE"
    else "WEAK"
  { VIXScore := vixScore, IVRankScore := ivRankScore, RSIScore := rsiScore,
    PutCallRatioScore := pcrScore, PremiumYieldScore := premScore,
    CompositeScore := composite, RawVIX := input.VIX, RawIVRank := ivRank,
    RawRSI := rsi, RawPutCallRatio := pcr, RawPremiumYield := premYield,
    Signal := signal }

/-- The composite formula exactly as the specification words it: sum
`weight_i * score_i` over the signals whose score is defined (not NaN),
divided by the sum of those same weights; `0` when every score is
undefined. -/
def compositeSpecF (ps : List (ℚ × F)) : F :=
  let d := ps.filterMap fun ws =>
    match ws.2 with
    | F.nan => none
    | F.fin q => some (ws.1, q)
  if d = [] then F.fin 0
  else F.fin ((d.map fun p => p.1 * p.2).sum / (d.map Prod.fst).sum)

theorem isNaN_false_iff (x : F) : x.isNaN = false ↔ ∃ q, x = F.fin q := by
  cases x <;> simp

theorem sub_isNaN_false {x y : F} (hx : x.isNaN = false) (hy : y.isNaN = false) :
    (F.sub x y).isNaN = false := by
  cases x <;> cases y <;> simp_all

/-- `linearInterp` never returns NaN when its six control values are finite
and the two segments are non-degenerate — not even on a NaN input `x`, where
every comparison is false and the top control value is returned. -/
theorem linearInterp_isNaN_false (x : F) (a b c d e g : ℚ)
    (hab : b - a ≠ 0) (hbc : c - b ≠ 0) :
    (linearInterp x (F.fin a) (F.fin b) (F.fin c) (F.fin d) (F.fin e) (F.fin g)).isNaN
      = false := by
  cases x with
  | nan => simp [linearInterp]
  | fin v =>
    simp only [linearInterp, F.le_fin_fin]
    split_ifs <;> simp [hab, hbc]

theorem scoreVIX_isNaN_false (x : F) : (ScoreVIX x).isNaN = false :=
  linearInterp_isNaN_false x _ _ _ _ _ _ (by norm_num) (by norm_num)

theorem scorePCR_isNaN_false (x : F) : (ScorePutCallRatio x).isNaN = false :=
  linearInterp_isNaN_false x _ _ _ _ _ _ (by norm_num) (by norm_num)

theorem scorePremiumYield_isNaN_false (x : F) : (ScorePremiumYield x).isNaN = false :=
  linearInterp_isNaN_false x _ _ _ _ _ _ (by norm_num) (by norm_num)

/-- C7: for all inputs, `CalculateIVRank` is undefined (NaN) whenever the high
equals the low — in particular it is not `0` and not `100` there — and
otherwise it equals `(current - low) / (high - low) * 100`. -/
theorem ivrank_degenerate_characterization (cur lo hi : F) :
    (hi = lo → CalculateIVRank cur lo hi = F.nan) ∧
    (hi ≠ lo → CalculateIVRank cur lo hi = (cur - lo) / (hi - lo) * F.fin 100) := by
  constructor
  · rintro rfl
    cases hi with
    | nan => simp [CalculateIVRank]
    | fin a => simp [CalculateIVRank]
  · intro hne
    have hguard : F.beq (hi - lo) (F.fin 0) = false := by
      cases hi with
      | nan => simp
      | fin a =>
        cases lo with
        | nan => simp
        | fin b =>
          have : a - b ≠ 0 := sub_ne_zero.mpr (by simpa [F.fin.injEq] using hne)
          simp [this]
    simp [CalculateIVRank, hguard]

/-- Witness for C7 at concrete inputs. -/
theorem ivrank_degenerate_characterization_witness :
    CalculateIVRank (F.fin 30) (F.fin 30) (F.fin 30) = F.nan ∧
    CalculateIVRank (F.fin 30) (F.fin 20) (F.fin 40) =
      (F.fin 30 - F.fin 20) / (F.fin 40 - F.fin 20) * F.fin 100 :=
  ⟨(ivrank_degenerate_characterization (F.fin 30) (F.fin 30) (F.fin 30)).1 rfl,
   (ivrank_degenerate_characterization (F.fin 30) (F.fin 20) (F.fin 40)).2
     (by norm_num)⟩

/-- C4 counterexample: with `current = 200` above the range `[0, 100]`, the
raw IV rank is `200`, outside `[0, 100]` — the raw calculator does not clamp
(only the downstream `ScoreIVRank` does). -/
theorem ivrank_range_counterexample :
    F.fin 100 ≠ F.fin 0 ∧
    CalculateIVRank (F.fin 200) (F.fin 0) (F.fin 100) = F.fin 200 ∧
    F.inRange 0 100 (CalculateIVRank (F.fin 200) (F.fin 0) (F.fin 100)) = false := by
  norm_num [CalculateIVRank]

/-- C4 amended: whenever `high ≠ low` and `current` lies between `low` and
`high` (inclusive), `CalculateIVRank` returns a value in `[0, 100]`. -/
theorem ivrank_range_amended (cur lo hi : ℚ) (hne : hi ≠ lo)
    (h1 : min lo hi ≤ cur) (h2 : cur ≤ max lo hi) :
    F.inRange 0 100 (CalculateIVRank (F.fin cur) (F.fin lo) (F.fin hi)) = true := by
  have hsub : hi - lo ≠ 0 := sub_ne_zero.mpr hne
  have key : 0 ≤ (cur - lo) / (hi - lo) ∧ (cur - lo) / (hi - lo) ≤ 1 := by
    rcases lt_or_gt_of_ne hne with hlt | hgt
    · have ha : hi ≤ cur := by rw [min_eq_right hlt.le] at h1; exact h1
      have hb : cur ≤ lo := by rw [max_eq_left hlt.le] at h2; exact h2
      have hd : 0 < lo - hi := by linarith
      have hrw : (cur - lo) / (hi - lo) = (lo - cur) / (lo - hi) := by
        rw [show cur - lo = -(lo - cur) by ring, show hi - lo = -(lo - hi) by ring,
          neg_div_neg_eq]
      rw [hrw]
      exact ⟨div_nonneg (by linarith) hd.le, (div_le_one hd).mpr (by linarith)⟩
    · have ha : lo ≤ cur := by rw [min_eq_left hgt.le] at h1; exact h1
      have hb : cur ≤ hi := by rw [max_eq_right hgt.le] at h2; exact h2
      have hd : 0 < hi - lo := by linarith
      exact ⟨div_nonneg (by linarith) hd.le, (div_le_one hd).mpr (by linarith)⟩
  norm_num [CalculateIVRank, hsub]
  constructor
  · nlinarith [key.1, key.2]
  · nlinarith [key.1, key.2]

/-- Witness for the amended C4 at a concrete input. -/
theorem ivrank_range_amended_witness :
    F.inRange 0 100 (CalculateIVRank (F.fin 50) (F.fin 0) (F.fin 100)) = true :=
  ivrank_range_amended 50 0 100 (by norm_num) (by norm_num) (by norm_num)

/-- Wilder's canonical 15-point closing-price sequence. -/
def wilder15 : List F :=
  [F.fin 44, F.fin (4434 / 100), F.fin (4409 / 100), F.fin (4361 / 100),
   F.fin (4433 / 100), F.fin (4483 / 100), F.fin (4510 / 100), F.fin (4542 / 100),
   F.fin (4584 / 100), F.fin (4608 / 100), F.fin (4589 / 100), F.fin (4603 / 100),
   F.fin (4561 / 100), F.fin (4628 / 100), F.fin (4628 / 100)]

/-- C5: on Wilder's canonical 15-point sequence, `CalculateRSI` returns a
defined value in `[60, 80]` (the exact value here is `100 - 100/(1 + RS)` with
`RS = 3.62/1.34`, about `72.98`). -/
theorem rsi_wilder_example : F.inRange 60 80 (CalculateRSI wilder15) = true := by
  norm_num [CalculateRSI, wilder15, rsiInitStep, List.foldl]

theorem zipWith_sub_fin :
    ∀ {l1 l2 : List F}, (∀ x ∈ l1, x.isNaN = false) → (∀ x ∈ l2, x.isNaN = false) →
      ∀ d ∈ List.zipWith F.sub l1 l2, d.isNaN = false := by
  intro l1
  induction l1 with
  | nil => simp
  | cons a l ih =>
    intro l2 h1 h2
    cases l2 with
    | nil => simp
    | cons b m =>
      intro d hd
      rcases List.mem_cons.mp hd with rfl | hd
      · exact sub_isNaN_false (h1 a (by simp)) (h2 b (by simp))
      · exact ih (fun x hx => h1 x (by simp [hx])) (fun x hx => h2 x (by simp [hx])) d hd

theorem foldl_rsiInitStep_good :
    ∀ (l : List F) (g lo : ℚ), 0 ≤ g → 0 ≤ lo → (∀ d ∈ l, d.isNaN = false) →
      ∃ a b, l.foldl rsiInitStep (F.fin g, F.fin lo) = (F.fin a, F.fin b) ∧
        0 ≤ a ∧ 0 ≤ b := by
  intro l
  induction l with
  | nil => exact fun g lo hg hlo _ => ⟨g, lo, rfl, hg, hlo⟩
  | cons d rest ih =>
    intro g lo hg hlo hfin
    obtain ⟨q, rfl⟩ := (isNaN_false_iff d).mp (hfin d (by simp))
    by_cases hpos : (0 : ℚ) < q
    · have hstep : rsiInitStep (F.fin g, F.fin lo) (F.fin q) = (F.fin (g + q), F.fin lo) := by
        simp [rsiInitStep, hpos]
      rw [List.foldl_cons, hstep]
      exact ih (g + q) lo (by linarith) hlo fun x hx => hfin x (by simp [hx])
    · have hstep : rsiInitStep (F.fin g, F.fin lo) (F.fin q) = (F.fin g, F.fin (lo - q)) := by
        simp [rsiInitStep, hpos]
      rw [List.foldl_cons, hstep]
      push_neg at hpos
      exact ih g (lo - q) hg (by linarith) fun x hx => hfin x (by simp [hx])

theorem foldl_rsiSmoothStep_good :
    ∀ (l : List F) (g lo : ℚ), 0 ≤ g → 0 ≤ lo → (∀ d ∈ l, d.isNaN = false) →
      ∃ a b, l.foldl rsiSmoothStep (F.fin g, F.fin lo) = (F.fin a, F.fin b) ∧
        0 ≤ a ∧ 0 ≤ b := by
  intro l
  induction l with
  | nil => exact fun g lo hg hlo _ => ⟨g, lo, rfl, hg, hlo⟩
  | cons d rest ih =>
    intro g lo hg hlo hfin
    obtain ⟨q, rfl⟩ := (isNaN_false_iff d).mp (hfin d (by simp))
    by_cases hpos : (0 : ℚ) < q
    · have hstep : rsiSmoothStep (F.fin g, F.fin lo) (F.fin q)
          = (F.fin ((g * 13 + q) / 14), F.fin (lo * 13 / 14)) := by
        norm_num [rsiSmoothStep, hpos]
      rw [List.foldl_cons, hstep]
      exact ih ((g * 13 + q) / 14) (lo * 13 / 14) (by positivity)
        (by positivity) fun x hx => hfin x (by simp [hx])
    · have hstep : rsiSmoothStep (F.fin g, F.fin lo) (F.fin q)
          = (F.fin (g * 13 / 14), F.fin ((lo * 13 - q) / 14)) := by
        norm_num [rsiSmoothStep, hpos]
      rw [List.foldl_cons, hstep]
      push_neg at hpos
      refine ih (g * 13 / 14) ((lo * 13 - q) / 14) (by positivity) ?_
        fun x hx => hfin x (by simp [hx])
      have : 0 ≤ lo * 13 - q := by linarith
      positivity

/-- C6: `CalculateRSI` is NaN exactly on series of fewer than 15 points; on
any series of at least 15 finite (non-NaN) closes it returns a defined
value. -/
theorem rsi_defined_characterization (closes : List F) :
    (closes.length < 15 → CalculateRSI closes = F.nan) ∧
    (15 ≤ closes.length → (∀ x ∈ closes, x.isNaN = false) →
      ∃ q, CalculateRSI closes = F.fin q) := by
  constructor
  · intro hlen
    simp [CalculateRSI, hlen]
  · intro hlen hfin
    have hnot : ¬ closes.length < 15 := by omega
    have hd : ∀ d ∈ List.zipWith F.sub closes.tail closes, d.isNaN = false :=
      zipWith_sub_fin (fun x hx => hfin x (List.mem_of_mem_tail hx)) hfin
    obtain ⟨a, b, hab, ha, hb⟩ :=
      foldl_rsiInitStep_good ((List.zipWith F.sub closes.tail closes).take 14) 0 0
        le_rfl le_rfl (fun x hx => hd x (List.mem_of_mem_take hx))
    obtain ⟨a2, b2, hab2, ha2, hb2⟩ :=
      foldl_rsiSmoothStep_good ((List.zipWith F.sub closes.tail closes).drop 14)
        (a / 14) (b / 14) (by positivity) (by positivity)
        (fun x hx => hd x (List.mem_of_mem_drop hx))
    by_cases hz : b2 = 0
    · refine ⟨100, ?_⟩
      norm_num [CalculateRSI, hnot, hab, hab2, hz]
    · have hbpos : 0 < b2 := lt_of_le_of_ne hb2 (Ne.symm hz)
      have hrs : (0 : ℚ) ≤ a2 / b2 := div_nonneg ha2 hb2
      refine ⟨100 - 100 / (1 + a2 / b2), ?_⟩
      have h1 : (1 : ℚ) + a2 / b2 ≠ 0 := by positivity
      norm_num [CalculateRSI, hnot, hab, hab2, hz, h1]

/-- Witness for C6: the empty series is NaN; Wilder's 15-point series is
defined. -/
theorem rsi_defined_characterization_witness :
    CalculateRSI [] = F.nan ∧ ∃ q, CalculateRSI wilder15 = F.fin q :=
  ⟨(rsi_defined_characterization []).1 (by norm_num),
   (rsi_defined_characterization wilder15).2 (by norm_num [wilder15])
     (by simp [wilder15])⟩

/-- C8: each scorer returns exactly the outer control score at or beyond the
outer control points, and exactly 50 at its middle control point. -/
theorem scorer_control_points :
    (∀ q : ℚ, q ≤ 15 → ScoreVIX (F.fin q) = F.fin 0) ∧
    (∀ q : ℚ, 30 ≤ q → ScoreVIX (F.fin q) = F.fin 100) ∧
    (∀ q : ℚ, q ≤ 0 → ScoreIVRank (F.fin q) = F.fin 0) ∧
    (∀ q : ℚ, 100 ≤ q → ScoreIVRank (F.fin q) = F.fin 100) ∧
    (∀ q : ℚ, 70 ≤ q → ScoreRSI (F.fin q) = F.fin 0) ∧
    (∀ q : ℚ, q ≤ 20 → ScoreRSI (F.fin q) = F.fin 100) ∧
    (∀ q : ℚ, q ≤ 1 / 2 → ScorePutCallRatio (F.fin q) = F.fin 0) ∧
    (∀ q : ℚ, 3 / 2 ≤ q → ScorePutCallRatio (F.fin q) = F.fin 100) ∧
    (∀ q : ℚ, q ≤ 0 → ScorePremiumYield (F.fin q) = F.fin 0) ∧
    (∀ q : ℚ, 30 ≤ q → ScorePremiumYield (F.fin q) = F.fin 100) ∧
    ScoreVIX (F.fin 20) = F.fin 50 ∧ ScoreIVRank (F.fin 50) = F.fin 50 ∧
    ScoreRSI (F.fin 40) = F.fin 50 ∧ ScorePutCallRatio (F.fin 1) = F.fin 50 ∧
    ScorePremiumYield (F.fin 15) = F.fin 50 := by
  refine ⟨?_, ?_, ?_, ?_, ?_, ?_, ?_, ?_, ?_, ?_, ?_, ?_, ?_, ?_, ?_⟩
  · intro q hq
    norm_num [ScoreVIX, linearInterp, hq]
  · intro q hq
    rcases eq_or_lt_of_le hq with rfl | hlt
    · norm_num [ScoreVIX, linearInterp]
    · have h15 : ¬ q ≤ 15 := by linarith
      have h20 : ¬ q ≤ 20 := by linarith
      have h30 : ¬ q ≤ 30 := by linarith
      norm_num [ScoreVIX, linearInterp, h15, h20, h30]
  · intro q hq
    norm_num [ScoreIVRank, linearInterp, hq]
  · intro q hq
    rcases eq_or_lt_of_le hq with rfl | hlt
    · norm_num [ScoreIVRank, linearInterp]
    · have h0 : ¬ q ≤ 0 := by linarith
      have h50 : ¬ q ≤ 50 := by linarith
      have h100 : ¬ q ≤ 100 := by linarith
      norm_num [ScoreIVRank, linearInterp, h0, h50, h100]
  · intro q hq
    norm_num [ScoreRSI, hq]
  · intro q hq
    have h70 : ¬ (70 : ℚ) ≤ q := by linarith
    norm_num [ScoreRSI, h70, hq]
  · intro q hq
    norm_num [ScorePutCallRatio, linearInterp, hq]
  · intro q hq
    rcases eq_or_lt_of_le hq with rfl | hlt
    · norm_num [ScorePutCallRatio, linearInterp]
    · have ha : ¬ q ≤ 1 / 2 := by linarith
      have hb : ¬ q ≤ 1 := by linarith
      have hc : ¬ q ≤ 3 / 2 := by linarith
      norm_num [ScorePutCallRatio, linearInterp, ha, hb, hc]
  · intro q hq
    norm_num [ScorePremiumYield, linearInterp, hq]
  · intro q hq
    rcases eq_or_lt_of_le hq with rfl | hlt
    · norm_num [ScorePremiumYield, linearInterp]
    · have h0 : ¬ q ≤ 0 := by linarith
      have h15 : ¬ q ≤ 15 := by linarith
      have h30 : ¬ q ≤ 30 := by linarith
      norm_num [ScorePremiumYield, linearInterp, h0, h15, h30]
  · norm_num [ScoreVIX, linearInterp]
  · norm_num [ScoreIVRank, linearInterp]
  · norm_num [ScoreRSI]
  · norm_num [ScorePutCallRatio, linearInterp]
  · norm_num [ScorePremiumYield, linearInterp]

/-- Witness for C8: the quantified clamping facts applied at concrete inputs
beyond the outer control points. -/
theorem scorer_control_points_witness :
    ScoreVIX (F.fin 10) = F.fin 0 ∧ ScoreVIX (F.fin 50) = F.fin 100 ∧
    ScoreIVRank (F.fin (-5)) = F.fin 0 ∧ ScoreIVRank (F.fin 120) = F.fin 100 ∧
    ScoreRSI (F.fin 80) = F.fin 0 ∧ ScoreRSI (F.fin 10) = F.fin 100 ∧
    ScorePutCallRatio (F.fin (3 / 10)) = F.fin 0 ∧
    ScorePutCallRatio (F.fin 2) = F.fin 100 ∧
    ScorePremiumYield (F.fin (-1)) = F.fin 0 ∧
    ScorePremiumYield (F.fin 45) = F.fin 100 :=
  ⟨scorer_control_points.1 10 (by norm_num),
   scorer_control_points.2.1 50 (by norm_num),
   scorer_control_points.2.2.1 (-5) (by norm_num),
   scorer_control_points.2.2.2.1 120 (by norm_num),
   scorer_control_points.2.2.2.2.1 80 (by norm_num),
   scorer_control_points.2.2.2.2.2.1 10 (by norm_num),
   scorer_control_points.2.2.2.2.2.2.1 (3 / 10) (by norm_num),
   scorer_control_points.2.2.2.2.2.2.2.1 2 (by norm_num),
   scorer_control_points.2.2.2.2.2.2.2.2.1 (-1) (by norm_num),
   scorer_control_points.2.2.2.2.2.2.2.2.2.1 45 (by norm_num)⟩

/-- A concrete input whose VIX is NaN and whose other metrics are defined
(IV rank 50, put/call ratio 1, premium yield 0; the empty price history makes
RSI undefined, so it is dropped by re-weighting). -/
def nanVixInput : SignalInput :=
  { VIX := F.nan, CurrentIV := F.fin 30, IVHigh52w := F.fin 40, IVLow52w := F.fin 20,
    ClosingPrices := [], TotalPutVolume := F.fin 100, TotalCallVolume := F.fin 100,
    PutPremium := F.fin 0, StrikePrice := F.fin 100, DTE := 30 }

/-- C10: a `linearInterp`-based scorer applied to NaN returns the clamped top
control score (100 for every scorer), because every comparison against NaN is
false and the final else branch returns `y2`; consequently `ComputeSignals`
keeps a full-weight score of 100 for such a signal instead of dropping it.
On `nanVixInput` the composite is `(0.20*100 + 0.25*50 + 0.15*50 + 0.20*0) /
(0.20 + 0.25 + 0.15 + 0.20) = 50`, i.e. the NaN-VIX signal participates at
full weight with score 100 (dropping it would give 33.33). -/
theorem nan_input_scores_100 :
    (∀ a b c d e g : ℚ,
      linearInterp F.nan (F.fin a) (F.fin b) (F.fin c) (F.fin d) (F.fin e) (F.fin g)
        = F.fin (max 0 (min 100 g))) ∧
    ScoreVIX F.nan = F.fin 100 ∧ ScoreIVRank F.nan = F.fin 100 ∧
    ScorePutCallRatio F.nan = F.fin 100 ∧ ScorePremiumYield F.nan = F.fin 100 ∧
    (ComputeSignals nanVixInput).VIXScore = F.fin 100 ∧
    (ComputeSignals nanVixInput).CompositeScore = F.fin 50 := by
  refine ⟨fun a b c d e g => by simp [linearInterp], ?_, ?_, ?_, ?_, ?_, ?_⟩
  · norm_num [ScoreVIX, linearInterp]
  · norm_num [ScoreIVRank, linearInterp]
  · norm_num [ScorePutCallRatio, linearInterp]
  · norm_num [ScorePremiumYield, linearInterp]
  · norm_num [ComputeSignals, nanVixInput, ScoreVIX, linearInterp]
  · norm_num [ComputeSignals, nanVixInput, ScoreVIX, ScoreIVRank, ScorePutCallRatio,
      ScorePremiumYield, linearInterp, CalculateIVRank, CalculateRSI,
      CalculatePremiumYield, compositeStep, List.foldl,
      WeightVIX, WeightIVRank, WeightRSI, WeightPutCallRatio, WeightPremiumYield]

theorem composite_fold_spec (s1 s2 s3 s4 s5 : F)
    (h1 : s1.isNaN = false) (h4 : s4.isNaN = false) (h5 : s5.isNaN = false) :
    (let acc := [(WeightVIX, s1), (WeightIVRank, s2), (WeightRSI, s3),
        (WeightPutCallRatio, s4), (WeightPremiumYield, s5)].foldl compositeStep (0, 0)
     if 0 < acc.1 then F.fin (acc.2 / acc.1) else F.fin 0)
      = compositeSpecF [(WeightVIX, s1), (WeightIVRank, s2), (WeightRSI, s3),
          (WeightPutCallRatio, s4), (WeightPremiumYield, s5)] := by
  obtain ⟨a, rfl⟩ := (isNaN_false_iff s1).mp h1
  obtain ⟨d, rfl⟩ := (isNaN_false_iff s4).mp h4
  obtain ⟨e, rfl⟩ := (isNaN_false_iff s5).mp h5
  cases s2 <;> cases s3 <;>
    · norm_num [compositeSpecF, compositeStep, List.foldl, List.filterMap_cons,
        WeightVIX, WeightIVRank, WeightRSI, WeightPutCallRatio, WeightPremiumYield]
      rw [if_neg (by simp)]
      exact congrArg F.fin (by ring)

/-- C1: for every input, `ComputeSignals` sets the composite score to the sum
of `weight_i * score_i` over the defined (non-NaN) sub-scores divided by the
sum of those same weights (weights 0.20 / 0.25 / 0.20 / 0.15 / 0.20);
undefined sub-scores are dropped from numerator and denominator alike, and
the fallback for the all-undefined case is 0 (that case is encoded in
`compositeSpecF` and never arises, because the VIX, put/call-ratio and
premium-yield scores are never NaN). -/
theorem composite_reweighting (input : SignalInput) :
    (ComputeSignals input).CompositeScore =
      compositeSpecF
        [(WeightVIX, (ComputeSignals input).VIXScore),
         (WeightIVRank, (ComputeSignals input).IVRankScore),
         (WeightRSI, (ComputeSignals input).RSIScore),
         (WeightPutCallRatio, (ComputeSignals input).PutCallRatioScore),
         (WeightPremiumYield, (ComputeSignals input).PremiumYieldScore)] := by
  simp only [ComputeSignals]
  exact composite_fold_spec _ _ _ _ _ (scoreVIX_isNaN_false _)
    (scorePCR_isNaN_false _) (scorePremiumYield_isNaN_false _)

/-! The contract-selection side of the engine (`CalculateDelta`,
`FilterContracts`, `SelectTargetContract`) involves `math.Log`, `math.Sqrt`
and `math.Erfc`, so it is embedded over the real numbers.  `math.Erfc` enters
only through `normCDF x = 0.5 * erfc (-x/√2)`, which is exactly the standard
normal cumulative distribution function; it is modelled here by its integral
definition. -/

noncomputable section

open scoped Classical

/-- `RiskFreeRate = 0.05`. -/
def RiskFreeRate : ℝ := 5 / 100

/-- `normCDF`: the standard normal CDF (the source computes it as
`0.5 * math.Erfc (-x / math.Sqrt2)`). -/
def normCDF (x : ℝ) : ℝ :=
  (Real.sqrt (2 * Real.pi))⁻¹ * ∫ t in Set.Iic x, Real.exp (-t ^ 2 / 2)

/-- `CalculateDelta`: Black-Scholes put delta `N(d1) - 1`, and `0` on any
non-positive input. -/
def CalculateDelta (S K iv : ℝ) (dte : ℤ) : ℝ :=
  if iv ≤ 0 ∨ dte ≤ 0 ∨ S ≤ 0 ∨ K ≤ 0 then 0
  else
    let t : ℝ := (dte : ℝ) / 365
    let sqrtT := Real.sqrt t
    let d1 := (Real.log (S / K) + (RiskFreeRate + iv * iv / 2) * t) / (iv * sqrtT)
    normCDF d1 - 1

theorem gauss_integrable : MeasureTheory.Integrable fun t : ℝ => Real.exp (-t ^ 2 / 2) := by
  refine (integrable_exp_neg_mul_sq (by norm_num : (0 : ℝ) < 1 / 2)).congr ?_
  refine Filter.Eventually.of_forall fun t => ?_
  show Real.exp (-(1 / 2) * t ^ 2) = Real.exp (-t ^ 2 / 2)
  congr 1
  ring

theorem gauss_total : ∫ t : ℝ, Real.exp (-t ^ 2 / 2) = Real.sqrt (2 * Real.pi) := by
  have e : ∀ t : ℝ, -t ^ 2 / 2 = -(1 / 2) * t ^ 2 := fun t => by ring
  simp_rw [e]
  rw [integral_gaussian]
  congr 1
  ring

theorem gauss_Iic_zero :
    ∫ t in Set.Iic (0 : ℝ), Real.exp (-t ^ 2 / 2) = Real.sqrt (2 * Real.pi) / 2 := by
  have heq : (∫ t in Set.Iic (0 : ℝ), Real.exp (-t ^ 2 / 2))
      = ∫ t in Set.Ioi (0 : ℝ), Real.exp (-t ^ 2 / 2) := by
    have h := integral_comp_neg_Iic (0 : ℝ) fun t => Real.exp (-t ^ 2 / 2)
    simp only [neg_sq, neg_zero] at h
    exact h
  have hsplit := intervalIntegral.integral_Iic_add_Ioi (b := (0 : ℝ))
    gauss_integrable.integrableOn gauss_integrable.integrableOn
  rw [gauss_total] at hsplit
  linarith [heq, hsplit]

theorem sqrt_two_pi_pos : 0 < Real.sqrt (2 * Real.pi) :=
  Real.sqrt_pos.mpr (by positivity)

theorem sqrt_two_pi_ge : (5 / 2 : ℝ) ≤ Real.sqrt (2 * Real.pi) := by
  calc (5 / 2 : ℝ) = Real.sqrt ((5 / 2) ^ 2) := (Real.sqrt_sq (by norm_num)).symm
    _ ≤ Real.sqrt (2 * Real.pi) := Real.sqrt_le_sqrt (by nlinarith [Real.pi_gt_d2])

theorem normCDF_zero : normCDF 0 = 1 / 2 := by
  rw [normCDF, gauss_Iic_zero]
  field_simp

theorem normCDF_mono {a b : ℝ} (hab : a ≤ b) : normCDF a ≤ normCDF b := by
  have h1 : (0 : ℝ) ≤ (Real.sqrt (2 * Real.pi))⁻¹ := by positivity
  refine mul_le_mul_of_nonneg_left ?_ h1
  refine MeasureTheory.setIntegral_mono_set gauss_integrable.integrableOn ?_ ?_
  · exact Filter.Eventually.of_forall fun t => (Real.exp_pos _).le
  · exact HasSubset.Subset.eventuallyLE (Set.Iic_subset_Iic.mpr hab)

theorem normCDF_upper {x : ℝ} (hx : 0 ≤ x) : normCDF x ≤ 1 / 2 + 2 / 5 * x := by
  have hsub : (∫ t in Set.Iic x, Real.exp (-t ^ 2 / 2))
        - (∫ t in Set.Iic (0 : ℝ), Real.exp (-t ^ 2 / 2))
      = ∫ t in (0 : ℝ)..x, Real.exp (-t ^ 2 / 2) :=
    intervalIntegral.integral_Iic_sub_Iic gauss_integrable.integrableOn
      gauss_integrable.integrableOn
  rw [intervalIntegral.integral_of_le hx] at hsub
  have hboundInt : (∫ t in Set.Ioc (0 : ℝ) x, Real.exp (-t ^ 2 / 2))
      ≤ ∫ t in Set.Ioc (0 : ℝ) x, (1 : ℝ) := by
    refine MeasureTheory.setIntegral_mono_on gauss_integrable.integrableOn
      (MeasureTheory.integrableOn_const.mpr (Or.inr ?_)) measurableSet_Ioc ?_
    · rw [Real.volume_Ioc]
      exact ENNReal.ofReal_lt_top
    · intro t ht
      rw [Real.exp_le_one_iff]
      nlinarith [sq_nonneg t]
  have hconst : (∫ t in Set.Ioc (0 : ℝ) x, (1 : ℝ)) = x := by
    simp [Real.volume_Ioc, ENNReal.toReal_ofReal hx]
  have key : (∫ t in Set.Iic x, Real.exp (-t ^ 2 / 2)) ≤ Real.sqrt (2 * Real.pi) / 2 + x := by
    have h0 := gauss_Iic_zero
    linarith [hsub, hboundInt, hconst]
  have hinv : (Real.sqrt (2 * Real.pi))⁻¹ ≤ 2 / 5 := by
    rw [inv_le_comm₀ sqrt_two_pi_pos (by norm_num)]
    calc (2 / 5 : ℝ)⁻¹ = 5 / 2 := by norm_num
      _ ≤ Real.sqrt (2 * Real.pi) := sqrt_two_pi_ge
  have hIntNonneg : 0 ≤ ∫ t in Set.Iic x, Real.exp (-t ^ 2 / 2) :=
    MeasureTheory.setIntegral_nonneg measurableSet_Iic fun t _ => (Real.exp_pos _).le
  calc normCDF x ≤ (Real.sqrt (2 * Real.pi))⁻¹ * (Real.sqrt (2 * Real.pi) / 2 + x) := by
        exact mul_le_mul_of_nonneg_left key (by positivity)
    _ = 1 / 2 + (Real.sqrt (2 * Real.pi))⁻¹ * x := by
        rw [mul_add, ← mul_div_assoc, inv_mul_cancel₀ (ne_of_gt sqrt_two_pi_pos)]
    _ ≤ 1 / 2 + 2 / 5 * x := by nlinarith [hinv, hx]

/-- The `d1` term of `CalculateDelta 100 95 0.30 30`. -/
def d1val : ℝ :=
  (Real.log (100 / 95) + (RiskFreeRate + 3 / 10 * (3 / 10) / 2) * ((30 : ℝ) / 365)) /
    (3 / 10 * Real.sqrt ((30 : ℝ) / 365))

theorem delta_eval : CalculateDelta 100 95 (3 / 10) 30 = normCDF d1val - 1 := by
  rw [CalculateDelta, if_neg (by norm_num)]
  show normCDF _ - 1 = _
  norm_num [d1val]

theorem d1val_pos : 0 < d1val := by
  have hlog : 0 < Real.log (100 / 95) := Real.log_pos (by norm_num)
  have hprod : (0 : ℝ) < (RiskFreeRate + 3 / 10 * (3 / 10) / 2) * ((30 : ℝ) / 365) := by
    rw [RiskFreeRate]
    norm_num
  apply div_pos (by linarith)
  positivity

theorem d1val_le : d1val ≤ 72 / 100 := by
  have hlog : Real.log (100 / 95) ≤ 1 / 19 := by
    have h := Real.log_le_sub_one_of_pos (show (0 : ℝ) < 100 / 95 by norm_num)
    linarith
  have hsq : (286 / 1000 : ℝ) ≤ Real.sqrt ((30 : ℝ) / 365) := by
    calc (286 / 1000 : ℝ) = Real.sqrt ((286 / 1000) ^ 2) :=
          (Real.sqrt_sq (by norm_num)).symm
      _ ≤ Real.sqrt ((30 : ℝ) / 365) := Real.sqrt_le_sqrt (by norm_num)
  have hden_pos : 0 < (3 / 10 : ℝ) * Real.sqrt ((30 : ℝ) / 365) := by positivity
  rw [d1val, div_le_iff₀ hden_pos]
  have hnum : Real.log (100 / 95) + (RiskFreeRate + 3 / 10 * (3 / 10) / 2) * ((30 : ℝ) / 365)
      ≤ 1 / 19 + 19 / 200 * (30 / 365) := by
    rw [RiskFreeRate]
    norm_num
    linarith
  calc Real.log (100 / 95) + (RiskFreeRate + 3 / 10 * (3 / 10) / 2) * ((30 : ℝ) / 365)
      ≤ 1 / 19 + 19 / 200 * (30 / 365) := hnum
    _ ≤ 72 / 100 * (3 / 10 * (286 / 1000)) := by norm_num
    _ ≤ 72 / 100 * (3 / 10 * Real.sqrt ((30 : ℝ) / 365)) := by nlinarith [hsq]

theorem delta_30dte_bounds :
    -(1 / 2 : ℝ) ≤ CalculateDelta 100 95 (3 / 10) 30 ∧
    CalculateDelta 100 95 (3 / 10) 30 ≤ -(21 / 100 : ℝ) := by
  rw [delta_eval]
  constructor
  · have h := normCDF_mono d1val_pos.le
    rw [normCDF_zero] at h
    linarith
  · have h := normCDF_upper d1val_pos.le
    have h2 := d1val_le
    nlinarith

/-- C9: `CalculateDelta(100, 95, 0.30, 30)` is negative and lies within
`[-0.50, -0.10]` (the proved upper bound is in fact `-0.21`). -/
theorem delta_sign_and_bound :
    CalculateDelta 100 95 (3 / 10) 30 < 0 ∧
    -(1 / 2 : ℝ) ≤ CalculateDelta 100 95 (3 / 10) 30 ∧
    CalculateDelta 100 95 (3 / 10) 30 ≤ -(1 / 10 : ℝ) := by
  obtain ⟨h1, h2⟩ := delta_30dte_bounds
  exact ⟨by linarith, h1, by linarith⟩

/-! Contract model and the filter/selector.  Go's `time.Now()` (used via
`time.Until` in `daysUntil` and via `expTime.Sub(now)` in
`SelectTargetContract`) is modelled by a single explicit parameter `now`,
measured in Unix seconds. -/

/-- `MinVolume = 10`. -/
def MinVolume : ℤ := 10

/-- `MinOpenInterest = 10`. -/
def MinOpenInterest : ℤ := 10

/-- `MaxBidAskSpread = 0.15`. -/
def MaxBidAskSpread : ℝ := 15 / 100

/-- `MinBidPrice = 0.10`. -/
def MinBidPrice : ℝ := 1 / 10

/-- `MaxDelta = -0.20`. -/
def MaxDelta : ℝ := -(1 / 5)

/-- `MinDelta = -0.50`. -/
def MinDelta : ℝ := -(1 / 2)

/-- `OptionContract`: a single option from the chain. -/
structure OptionContract where
  Strike : ℝ
  LastPrice : ℝ
  Bid : ℝ
  Ask : ℝ
  Volume : ℤ
  OpenInterest : ℤ
  ImpliedVolatility : ℝ
  Expiration : ℤ
  Delta : ℝ

/-- `OptionsData`: the parsed options chain for a ticker. -/
structure OptionsData where
  UnderlyingPrice : ℝ
  Puts : List OptionContract
  Calls : List OptionContract
  ExpirationDates : List ℤ

/-- `daysUntil`: whole days from `now` to the Unix timestamp `ts`, `0` when
`ts` is in the past (Go truncates the non-negative float day count toward
zero, i.e. takes its floor). -/
def daysUntil (now : ℝ) (ts : ℤ) : ℤ :=
  let d : ℝ := ((ts : ℝ) - now) / 86400
  if d < 0 then 0 else ⌊d⌋

/-- `FilterContracts`: quality filters; surviving contracts get their `Delta`
field populated. -/
def FilterContracts (now : ℝ) : List OptionContract → ℝ → List OptionContract
  | [], _ => []
  | c :: rest, underlyingPrice =>
    if c.Volume < MinVolume then FilterContracts now rest underlyingPrice
    else if c.OpenInterest < MinOpenInterest then FilterContracts now rest underlyingPrice
    else if c.Bid < MinBidPrice then FilterContracts now rest underlyingPrice
    else
      let mid := (c.Bid + c.Ask) / 2
      if mid ≤ 0 then FilterContracts now rest underlyingPrice
      else
        let spread := (c.Ask - c.Bid) / mid
        if spread > MaxBidAskSpread then FilterContracts now rest underlyingPrice
        else
          let dte := daysUntil now c.Expiration
          let delta := CalculateDelta underlyingPrice c.Strike c.ImpliedVolatility dte
          if delta < MinDelta ∨ delta > MaxDelta then
            FilterContracts now rest underlyingPrice
          else { c with Delta := delta } :: FilterContracts now rest underlyingPrice

/-- C3: every contract returned by `FilterContracts` satisfies all the quality
criteria: volume and open interest at least 10, bid at least 0.10, positive
mid price, bid-ask spread at most 15% of mid, and its populated delta — the
Black-Scholes delta computed from the underlying price, its strike, its IV
and its days-to-expiration — inside `[-0.50, -0.20]`.  Contrapositively, a
contract violating any one criterion is excluded regardless of the others. -/
theorem filter_contracts_sound (now underlyingPrice : ℝ) (cs : List OptionContract) :
    ∀ c ∈ FilterContracts now cs underlyingPrice,
      MinVolume ≤ c.Volume ∧ MinOpenInterest ≤ c.OpenInterest ∧
      MinBidPrice ≤ c.Bid ∧ 0 < (c.Bid + c.Ask) / 2 ∧
      (c.Ask - c.Bid) / ((c.Bid + c.Ask) / 2) ≤ MaxBidAskSpread ∧
      MinDelta ≤ c.Delta ∧ c.Delta ≤ MaxDelta ∧
      c.Delta = CalculateDelta underlyingPrice c.Strike c.ImpliedVolatility
        (daysUntil now c.Expiration) := by
  induction cs with
  | nil => simp [FilterContracts]
  | cons c0 rest ih =>
    intro c hc
    rw [FilterContracts] at hc
    dsimp only at hc
    split_ifs at hc with h1 h2 h3 h4 h5 h6
    · exact ih c hc
    · exact ih c hc
    · exact ih c hc
    · exact ih c hc
    · exact ih c hc
    · exact ih c hc
    · rcases List.mem_cons.mp hc with rfl | hc
      · push_neg at h1 h2 h3 h4 h5 h6
        exact ⟨h1, h2, h3, h4, h5, h6.1, h6.2, rfl⟩
      · exact ih c hc

/-- A concrete put contract: strike 95, bid = ask = 2, volume 100, open
interest 200, IV 0.30, expiring 30 days (2592000 s) after `now = 1`. -/
def wContract : OptionContract :=
  { Strike := 95, LastPrice := 0, Bid := 2, Ask := 2, Volume := 100,
    OpenInterest := 200, ImpliedVolatility := 3 / 10, Expiration := 2592001, Delta := 0 }

theorem daysUntil_wContract : daysUntil 1 2592001 = 30 := by
  rw [daysUntil]
  norm_num

theorem filter_eval_wContract :
    FilterContracts 1 [wContract] 100 =
      [{ wContract with Delta := CalculateDelta 100 95 (3 / 10) 30 }] := by
  obtain ⟨hd1, hd2⟩ := delta_30dte_bounds
  simp only [FilterContracts, wContract]
  rw [if_neg (by norm_num [MinVolume]), if_neg (by norm_num [MinOpenInterest]),
    if_neg (by norm_num [MinBidPrice]), if_neg (by norm_num),
    if_neg (by norm_num [MaxBidAskSpread]), daysUntil_wContract,
    if_neg (by push_neg; rw [MinDelta, MaxDelta]; constructor <;> linarith)]

/-- Witness for C3: the concrete contract `wContract` survives the filter
(with its delta populated), and the theorem applies to it. -/
theorem filter_contracts_sound_witness :
    ({ wContract with Delta := CalculateDelta 100 95 (3 / 10) 30 }
        ∈ FilterContracts 1 [wContract] 100) ∧
    MinDelta ≤ CalculateDelta 100 95 (3 / 10) 30 ∧
    CalculateDelta 100 95 (3 / 10) 30 ≤ MaxDelta := by
  have hmem : { wContract with Delta := CalculateDelta 100 95 (3 / 10) 30 }
      ∈ FilterContracts 1 [wContract] 100 := by
    rw [filter_eval_wContract]
    exact List.mem_singleton.mpr rfl
  have h := filter_contracts_sound 1 100 [wContract] _ hmem
  exact ⟨hmem, h.2.2.2.2.2.1, h.2.2.2.2.2.2.1⟩

/-- `math.MaxFloat64`, the initial "best distance" sentinel of the two
selection loops: `(2 - 2^-52) * 2^1023 = 2^1024 - 2^971`. -/
def maxFloat64 : ℝ := 2 ^ 1024 - 2 ^ 971

/-- Days to expiration as a real number: `expTime.Sub(now).Hours() / 24` for
a Unix-seconds timestamp. -/
def dteOf (now : ℝ) (e : ℤ) : ℝ := ((e : ℝ) - now) / 86400

/-- Body of the expiry-selection loop of `SelectTargetContract`: skip
expirations outside the `[21, 45]`-day window, otherwise keep the one whose
day count is strictly closer to 30 than the best so far. -/
def expiryStep (now : ℝ) (acc : ℤ × ℝ) (e : ℤ) : ℤ × ℝ :=
  let dte := dteOf now e
  if dte < 21 ∨ dte > 45 then acc
  else if |dte - 30| < acc.2 then (e, |dte - 30|) else acc

/-- Body of the nearest-ATM loop of `SelectTargetContract`: keep the contract
whose strike is strictly closer to the underlying price than the best so
far. -/
def nearestStep (underlyingPrice : ℝ) (acc : Option OptionContract × ℝ)
    (c : OptionContract) : Option OptionContract × ℝ :=
  if |c.Strike - underlyingPrice| < acc.2 then (some c, |c.Strike - underlyingPrice|)
  else acc

/-- `SelectTargetContract`: pick the expiry closest to 30 DTE within
`[21, 45]` (sentinel `bestExpiry = 0` meaning "none found"), collect the puts
of that expiry, filter them, and pick the surviving contract nearest the
money (nil pointer modelled as `none`). -/
def SelectTargetContract (now : ℝ) (chain : OptionsData) : Option OptionContract :=
  let best := chain.ExpirationDates.foldl (expiryStep now) (0, maxFloat64)
  if best.1 = 0 then none
  else
    let expiryPuts := chain.Puts.filter fun p => decide (p.Expiration = best.1)
    let filtered := FilterContracts now expiryPuts chain.UnderlyingPrice
    if filtered.isEmpty then none
    else (filtered.foldl (nearestStep chain.UnderlyingPrice) (none, maxFloat64)).1

/-- First-wins argmin: the element of the list minimising `f`, the earliest
one winning ties; `none` on the empty list. -/
def argminFirst {α : Type} (f : α → ℝ) : List α → Option α
  | [] => none
  | x :: xs =>
    match argminFirst f xs with
    | none => some x
    | some y => if f x ≤ f y then some x else some y

/-- `SelectTargetContract` exactly as claim C2 words it: among the chain's
expiration dates, the one whose days-to-expiration lies in `[21, 45]` closest
to 30 (no target when none qualifies); then `FilterContracts` on the puts of
that exact expiration; then the survivor with the smallest absolute strike
distance to the underlying price, the first encountered winning ties (and no
target when no contract survives, `argminFirst` of `[]` being `none`). -/
def SelectTargetContractSpec (now : ℝ) (chain : OptionsData) : Option OptionContract :=
  match argminFirst (fun e => |dteOf now e - 30|)
      (chain.ExpirationDates.filter fun e =>
        decide (21 ≤ dteOf now e ∧ dteOf now e ≤ 45)) with
  | none => none
  | some bestExp =>
    argminFirst (fun c => |c.Strike - chain.UnderlyingPrice|)
      (FilterContracts now (chain.Puts.filter fun p => decide (p.Expiration = bestExp))
        chain.UnderlyingPrice)

theorem argminFirst_mem {α : Type} (f : α → ℝ) :
    ∀ {l : List α} {m : α}, argminFirst f l = some m → m ∈ l := by
  intro l
  induction l with
  | nil => intro m h; simp [argminFirst] at h
  | cons x xs ih =>
    intro m h
    rw [argminFirst] at h
    cases hxs : argminFirst f xs with
    | none =>
      rw [hxs] at h
      exact (Option.some_inj.mp h) ▸ List.mem_cons_self x xs
    | some y =>
      rw [hxs] at h
      dsimp only at h
      split_ifs at h
      · exact (Option.some_inj.mp h) ▸ List.mem_cons_self x xs
      · exact List.mem_cons_of_mem x (ih (hxs.trans (congrArg some (Option.some_inj.mp h))))

theorem argminFirst_isSome {α : Type} (f : α → ℝ) (x : α) (xs : List α) :
    ∃ m, argminFirst f (x :: xs) = some m := by
  rw [argminFirst]
  cases argminFirst f xs with
  | none => exact ⟨x, rfl⟩
  | some y =>
    dsimp only
    by_cases h : f x ≤ f y
    · exact ⟨x, by rw [if_pos h]⟩
    · exact ⟨y, by rw [if_neg h]⟩

theorem foldl_expiryStep_char (now : ℝ) :
    ∀ (l : List ℤ) (a0 : ℤ) (d0 : ℝ),
      l.foldl (expiryStep now) (a0, d0) =
        match argminFirst (fun e => |dteOf now e - 30|)
            (l.filter fun e => decide (21 ≤ dteOf now e ∧ dteOf now e ≤ 45)) with
        | none => (a0, d0)
        | some m =>
          if |dteOf now m - 30| < d0 then (m, |dteOf now m - 30|) else (a0, d0) := by
  intro l
  induction l with
  | nil => intro a0 d0; rfl
  | cons x xs ih =>
    intro a0 d0
    by_cases hq : 21 ≤ dteOf now x ∧ dteOf now x ≤ 45
    · have hstep : expiryStep now (a0, d0) x =
          if |dteOf now x - 30| < d0 then (x, |dteOf now x - 30|) else (a0, d0) := by
        rw [expiryStep]
        dsimp only
        rw [if_neg (by push_neg; exact ⟨by linarith [hq.1], by linarith [hq.2]⟩)]
      rw [List.foldl_cons, hstep, List.filter_cons_of_pos (by simpa using hq), argminFirst]
      by_cases hc : |dteOf now x - 30| < d0
      · rw [if_pos hc, ih]
        cases hxs : argminFirst (fun e => |dteOf now e - 30|)
            (xs.filter fun e => decide (21 ≤ dteOf now e ∧ dteOf now e ≤ 45)) with
        | none =>
          simp only [hxs]
          all_goals first
            | rfl
            | (split_ifs <;> first | rfl | (exfalso; linarith))
        | some y =>
          by_cases hxy : |dteOf now x - 30| ≤ |dteOf now y - 30|
          · simp only [hxs, if_pos hxy]
            all_goals first
              | rfl
              | (split_ifs <;> first | rfl | (exfalso; linarith))
          · simp only [hxs, if_neg hxy]
            all_goals first
              | rfl
              | (split_ifs <;> first | rfl | (exfalso; linarith))
      · rw [if_neg hc, ih]
        cases hxs : argminFirst (fun e => |dteOf now e - 30|)
            (xs.filter fun e => decide (21 ≤ dteOf now e ∧ dteOf now e ≤ 45)) with
        | none =>
          simp only [hxs]
          all_goals first
            | rfl
            | (split_ifs <;> first | rfl | (exfalso; linarith))
        | some y =>
          by_cases hxy : |dteOf now x - 30| ≤ |dteOf now y - 30|
          · simp only [hxs, if_pos hxy]
            all_goals first
              | rfl
              | (split_ifs <;> first | rfl | (exfalso; linarith))
          · simp only [hxs, if_neg hxy]
            all_goals first
              | rfl
              | (split_ifs <;> first | rfl | (exfalso; linarith))
    · have hstep : expiryStep now (a0, d0) x = (a0, d0) := by
        rw [expiryStep]
        dsimp only
        rw [if_pos]
        rcases not_and_or.mp hq with h | h
        · exact Or.inl (lt_of_not_le h)
        · exact Or.inr (lt_of_not_le h)
      rw [List.foldl_cons, hstep, List.filter_cons_of_neg (by simpa using hq)]
      exact ih a0 d0

theorem foldl_nearestStep_char (p : ℝ) :
    ∀ (l : List OptionContract) (b0 : Option OptionContract) (d0 : ℝ),
      l.foldl (nearestStep p) (b0, d0) =
        match argminFirst (fun c => |c.Strike - p|) l with
        | none => (b0, d0)
        | some m => if |m.Strike - p| < d0 then (some m, |m.Strike - p|) else (b0, d0) := by
  intro l
  induction l with
  | nil => intro b0 d0; rfl
  | cons x xs ih =>
    intro b0 d0
    rw [List.foldl_cons, argminFirst]
    show List.foldl (nearestStep p)
        (if |x.Strike - p| < d0 then (some x, |x.Strike - p|) else (b0, d0)) xs = _
    by_cases hc : |x.Strike - p| < d0
    · rw [if_pos hc, ih]
      cases hxs : argminFirst (fun c => |c.Strike - p|) xs with
      | none =>
        simp only [hxs]
        all_goals first
          | rfl
          | (split_ifs <;> first | rfl | (exfalso; linarith))
      | some y =>
        by_cases hxy : |x.Strike - p| ≤ |y.Strike - p|
        · simp only [hxs, if_pos hxy]
          all_goals first
            | rfl
            | (split_ifs <;> first | rfl | (exfalso; linarith))
        · simp only [hxs, if_neg hxy]
          all_goals first
            | rfl
            | (split_ifs <;> first | rfl | (exfalso; linarith))
    · rw [if_neg hc, ih]
      cases hxs : argminFirst (fun c => |c.Strike - p|) xs with
      | none =>
        simp only [hxs]
        all_goals first
          | rfl
          | (split_ifs <;> first | rfl | (exfalso; linarith))
      | some y =>
        by_cases hxy : |x.Strike - p| ≤ |y.Strike - p|
        · simp only [hxs, if_pos hxy]
          all_goals first
            | rfl
            | (split_ifs <;> first | rfl | (exfalso; linarith))
        · simp only [hxs, if_neg hxy]
          all_goals first
            | rfl
            | (split_ifs <;> first | rfl | (exfalso; linarith))

theorem filter_contracts_strike_origin (now p : ℝ) (cs : List OptionContract) :
    ∀ c ∈ FilterContracts now cs p, ∃ c0 ∈ cs, c.Strike = c0.Strike := by
  induction cs with
  | nil => simp [FilterContracts]
  | cons c0 rest ih =>
    intro c hc
    rw [FilterContracts] at hc
    dsimp only at hc
    have step : ∀ h ∈ FilterContracts now rest p, ∃ d ∈ c0 :: rest, h.Strike = d.Strike :=
      fun h hh =>
        let ⟨d, hd, he⟩ := ih h hh
        ⟨d, List.mem_cons_of_mem c0 hd, he⟩
    split_ifs at hc
    · exact step c hc
    · exact step c hc
    · exact step c hc
    · exact step c hc
    · exact step c hc
    · exact step c hc
    · rcases List.mem_cons.mp hc with rfl | hc
      · exact ⟨c0, List.mem_cons_self c0 rest, rfl⟩
      · exact step c hc

/-- C2: with a positive reference time and every put's strike within
`math.MaxFloat64` of the underlying price (true of any real float data),
`SelectTargetContract` coincides with its specification: pick the expiration
whose days-to-expiration lies in `[21, 45]` closest to 30 DTE (none ⇒ no
target), filter the puts of exactly that expiration with `FilterContracts`
(no survivor ⇒ no target), and return the survivor with the smallest absolute
strike distance to the underlying price, the first encountered winning
ties. -/
theorem select_target_contract_correct (now : ℝ) (chain : OptionsData)
    (hnow : 0 < now)
    (hstrikes : ∀ c ∈ chain.Puts, |c.Strike - chain.UnderlyingPrice| < maxFloat64) :
    SelectTargetContract now chain = SelectTargetContractSpec now chain := by
  rw [SelectTargetContract, SelectTargetContractSpec, foldl_expiryStep_char]
  cases hbest : argminFirst (fun e => |dteOf now e - 30|)
      (chain.ExpirationDates.filter fun e =>
        decide (21 ≤ dteOf now e ∧ dteOf now e ≤ 45)) with
  | none =>
    simp only [hbest]
    simp
  | some m =>
    have hm_mem := argminFirst_mem _ hbest
    have hm_qual : 21 ≤ dteOf now m ∧ dteOf now m ≤ 45 := by
      have h := List.of_mem_filter hm_mem
      simpa using h
    have hdist : |dteOf now m - 30| < maxFloat64 := by
      have h1 : |dteOf now m - 30| ≤ 15 :=
        abs_le.mpr ⟨by linarith [hm_qual.1], by linarith [hm_qual.2]⟩
      have h2 : (15 : ℝ) < maxFloat64 := by
        rw [maxFloat64]
        norm_num
      linarith
    have hm_pos : (0 : ℤ) < m := by
      have h1 := hm_qual.1
      rw [dteOf, le_div_iff₀ (by norm_num : (0 : ℝ) < 86400)] at h1
      have : (0 : ℝ) < (m : ℝ) := by linarith
      exact_mod_cast this
    simp only [hbest, if_pos hdist]
    rw [if_neg (by exact_mod_cast hm_pos.ne')]
    cases hfil : FilterContracts now
        (chain.Puts.filter fun p => decide (p.Expiration = m)) chain.UnderlyingPrice with
    | nil =>
      simp only [hfil, argminFirst]
      simp
    | cons c0 rest =>
      obtain ⟨m2, hm2⟩ := argminFirst_isSome
        (fun c => |c.Strike - chain.UnderlyingPrice|) c0 rest
      have hm2_mem : m2 ∈ FilterContracts now
          (chain.Puts.filter fun p => decide (p.Expiration = m)) chain.UnderlyingPrice := by
        rw [hfil]
        exact argminFirst_mem _ hm2
      obtain ⟨c1, hc1_mem, hc1_eq⟩ :=
        filter_contracts_strike_origin now chain.UnderlyingPrice _ m2 hm2_mem
      have hm2_dist : |m2.Strike - chain.UnderlyingPrice| < maxFloat64 := by
        rw [hc1_eq]
        exact hstrikes c1 (List.mem_of_mem_filter hc1_mem)
      rw [hfil] at *
      simp only [List.isEmpty_cons, if_neg Bool.false_ne_true, foldl_nearestStep_char,
        hm2, if_pos hm2_dist]

/-- A concrete one-put chain around `wContract`. -/
def wChain : OptionsData :=
  { UnderlyingPrice := 100, Puts := [wContract], Calls := [],
    ExpirationDates := [2592001] }

/-- Witness for C2: the hypotheses hold at `now = 1` on the concrete chain
`wChain`, and the theorem applies. -/
theorem select_target_contract_correct_witness :
    (0 : ℝ) < 1 ∧
    (∀ c ∈ wChain.Puts, |c.Strike - wChain.UnderlyingPrice| < maxFloat64) ∧
    SelectTargetContract 1 wChain = SelectTargetContractSpec 1 wChain := by
  have h1 : (0 : ℝ) < 1 := by norm_num
  have h2 : ∀ c ∈ wChain.Puts, |c.Strike - wChain.UnderlyingPrice| < maxFloat64 := by
    intro c hc
    simp only [wChain, List.mem_singleton] at hc
    subst hc
    have habs : |wContract.Strike - (100 : ℝ)| = 5 := by
      rw [wContract]
      rw [abs_of_nonpos (by norm_num)]
      norm_num
    rw [show wChain.UnderlyingPrice = (100 : ℝ) from rfl, habs, maxFloat64]
    norm_num
  exact ⟨h1, h2, select_target_contract_correct 1 wChain h1 h2⟩
